import Mathlib

/-!
# Verification of the AI-TASK-MANAGER response pipeline

Shallow embedding of `scripts/modules/ai-services.js`: the subtask
reconciliation function `parseSubtasksFromText`, the decomposition response
processor `processClaudeResponse`, and the retrying provider wrapper
`callGemini` / `handleRequest`.

JavaScript values produced by `JSON.parse` are modelled by `JSVal`.
`JSON.parse` itself is an external builtin of the JS runtime, so every
embedded function is parameterised over `parse : String → Option JSVal`
(`none` models a thrown `SyntaxError`).  `CONFIG.useChinese` and the current
date are likewise parameters.  Machine side effects (`log`, the loading
indicator) are modelled as returned lists of message strings where a claim
needs them, and dropped otherwise.
-/

set_option maxHeartbeats 1000000

namespace AiServices

/-- A JavaScript runtime value, as producible by `JSON.parse` plus the
`undefined` and `NaN` values the reconciliation code can create
(`parseInt` of a non-numeric string yields `NaN`; a missing property reads
as `undefined`). Object fields are kept in insertion order, as in JS. -/
inductive JSVal where
  | vnum (n : Int)
  | vnan
  | vstr (s : String)
  | vbool (b : Bool)
  | vnull
  | vundef
  | varr (elems : List JSVal)
  | vobj (fields : List (String × JSVal))
deriving Repr

open JSVal

/-- JS truthiness: `undefined`, `null`, `NaN`, `false`, `0` and `""` are
falsy; every other value (including all objects and arrays) is truthy. -/
def truthy : JSVal → Bool
  | vundef => false
  | vnull => false
  | vnan => false
  | vbool b => b
  | vnum n => n != 0
  | vstr s => s != ""
  | varr _ => true
  | vobj _ => true

/-- `Array.isArray`. -/
def isArray : JSVal → Bool
  | varr _ => true
  | _ => false

/-- The elements of an array value (only ever used under `isArray`). -/
def elemsOf : JSVal → List JSVal
  | varr xs => xs
  | _ => []

/-- `typeof v === 'string'`. -/
def isString : JSVal → Bool
  | vstr _ => true
  | _ => false

/-- Is the value an object (in the narrow sense of `{...}`)? -/
def isObj : JSVal → Bool
  | vobj _ => true
  | _ => false

/-- JS strict equality `v === n` against a number `n`.  Note `NaN === n`
is `false` for every `n`, as in JS. -/
def isNumEq (v : JSVal) (n : Int) : Bool :=
  match v with
  | vnum m => m == n
  | _ => false

/-- First-match association lookup over an object's field list. -/
def lookupField : List (String × JSVal) → String → Option JSVal
  | [], _ => none
  | (k', v') :: rest, k => if k' = k then some v' else lookupField rest k

/-- Property update: replace the value of an existing key in place, or
append the key at the end — JS object insertion-order semantics. -/
def setPairs : List (String × JSVal) → String → JSVal → List (String × JSVal)
  | [], k, v => [(k, v)]
  | (k', v') :: rest, k, v =>
      if k' = k then (k, v) :: rest else (k', v') :: setPairs rest k v

/-- Total property read used in specifications: a missing property of an
object, or any property of a primitive, reads as `undefined`. -/
def getD : JSVal → String → JSVal
  | vobj fs, k => (lookupField fs k).getD vundef
  | _, _ => vundef

/-- Total property write used for `processClaudeResponse` (whose receiver is
known non-null at that point): writing a property of a non-object primitive
is a silent no-op in sloppy-mode JS. -/
def setD : JSVal → String → JSVal → JSVal
  | vobj fs, k, v => vobj (setPairs fs k v)
  | other, _, _ => other

/-- Property read as executed: reading a property of `null`/`undefined`
throws a `TypeError`, which the surrounding `try` of the source converts
into the fallback path. -/
def jsGet : JSVal → String → Except String JSVal
  | vnull, k => .error ("TypeError: Cannot read properties of null (reading '" ++ k ++ "')")
  | vundef, k => .error ("TypeError: Cannot read properties of undefined (reading '" ++ k ++ "')")
  | vobj fs, k => .ok ((lookupField fs k).getD vundef)
  | _, _ => .ok vundef

/-- Property write as executed: writing on `null`/`undefined` throws, on a
non-object primitive it is silently ignored (sloppy mode). -/
def jsSet : JSVal → String → JSVal → Except String JSVal
  | vnull, k, _ => .error ("TypeError: Cannot set properties of null (setting '" ++ k ++ "')")
  | vundef, k, _ => .error ("TypeError: Cannot set properties of undefined (setting '" ++ k ++ "')")
  | vobj fs, k, v => .ok (vobj (setPairs fs k v))
  | other, _, _ => .ok other

mutual

/-- String coercion used by JS template literals, for the interpolated log
messages.  Array elements that are `null`/`undefined` join as the empty
string, as `Array.prototype.join` does. -/
def showJS : JSVal → String
  | vnum n => toString n
  | vnan => "NaN"
  | vstr s => s
  | vbool b => if b then "true" else "false"
  | vnull => "null"
  | vundef => "undefined"
  | varr xs => String.intercalate "," (showJSElems xs)
  | vobj _ => "[object Object]"

def showJSElems : List JSVal → List String
  | [] => []
  | vnull :: rest => "" :: showJSElems rest
  | vundef :: rest => "" :: showJSElems rest
  | x :: rest => showJS x :: showJSElems rest

end

/-- Decimal digits to a natural number (most significant first). -/
def digitsVal : List Char → Nat → Nat
  | [], acc => acc
  | c :: cs, acc => digitsVal cs (acc * 10 + (c.toNat - '0'.toNat))

/-- `parseInt(s, 10)`: skip leading whitespace, an optional sign, then read
the maximal run of leading decimal digits; `NaN` when that run is empty.
(With an explicit radix of 10 there is no hex-prefix handling.) -/
def parseIntJS (s : String) : JSVal :=
  let cs := s.data.dropWhile (fun c => c.isWhitespace)
  let signed : Bool × List Char :=
    match cs with
    | '-' :: rest => (true, rest)
    | '+' :: rest => (false, rest)
    | rest => (false, rest)
  let digits := signed.2.takeWhile (fun c => c.isDigit)
  if digits.isEmpty then vnan
  else
    let n : Int := Int.ofNat (digitsVal digits 0)
    vnum (if signed.1 then -n else n)

/-- `text.indexOf(c)`, with `none` for JS's `-1`. -/
def jsIndexOf (s : String) (c : Char) : Option Nat :=
  go s.data 0
where
  go : List Char → Nat → Option Nat
    | [], _ => none
    | c' :: cs, i => if c' = c then some i else go cs (i + 1)

/-- `text.lastIndexOf(c)`, with `none` for JS's `-1`. -/
def jsLastIndexOf (s : String) (c : Char) : Option Nat :=
  go s.data 0 none
where
  go : List Char → Nat → Option Nat → Option Nat
    | [], _, acc => acc
    | c' :: cs, i, acc => go cs (i + 1) (if c' = c then some i else acc)

/-- `text.substring(a, b)`: both indices clamped to the string length and
swapped when out of order, then the half-open slice is taken. -/
def jsSubstring (s : String) (a b : Nat) : String :=
  let n := s.data.length
  let a' := min a n
  let b' := min b n
  let lo := min a' b'
  let hi := max a' b'
  ⟨(s.data.drop lo).take (hi - lo)⟩

/-- Does the second list start with the first? -/
def listStartsWith : List Char → List Char → Bool
  | [], _ => true
  | _ :: _, [] => false
  | c :: cs, d :: ds => c == d && listStartsWith cs ds

/-- Does `hay` contain `needle` as a contiguous substring? -/
def listContains (hay needle : List Char) : Bool :=
  match hay with
  | [] => needle.isEmpty
  | _ :: rest => listStartsWith needle hay || listContains rest needle

/-- `hay.toLowerCase().includes(needle)` for an already-lowercase
`needle` (lower-casing applied per character, which is what
`String.toLower` does). -/
def containsLower (hay : String) (needle : String) : Bool :=
  listContains (hay.data.map Char.toLower) needle.data

/-- Truthiness of a nullable string argument (`null` and `""` are falsy). -/
def optTruthy : Option String → Bool
  | none => false
  | some s => s != ""

/-! ## `parseSubtasksFromText` (ai-services.js lines 674-784)

The per-element body of `subtasks.map((subtask, index) => ...)` is
`reconcileSubtask`; the Chinese-translation repair blocks, four identical
copies in the source, are `fixTrans`.  Results are paired with the list of
`log('warn', ...)` message strings the source would emit; a thrown
`TypeError` (possible when an array element is `null`) is an `Except.error`
caught by the enclosing `try`. -/

/-- The dependency-coercion lambda of the source
(`dep => typeof dep === 'string' ? parseInt(dep, 10) : dep`): `parseInt`
is applied to every string entry unconditionally; non-string entries pass
through unchanged. -/
def coerceDep (dep : JSVal) : JSVal :=
  if isString dep then parseIntJS (showJS dep) else dep

/-- One bilingual repair block: when the primary field is truthy and the
paired secondary field is falsy, warn and set the secondary field to the
empty string. -/
def fixTrans (primary secondary : String) (st : JSVal) :
    Except String (JSVal × List String) := do
  let p ← jsGet st primary
  let sv ← jsGet st secondary
  if truthy p && !(truthy sv) then
    let idv ← jsGet st "id"
    let st' ← jsSet st secondary (vstr "")
    pure (st', ["Missing " ++ secondary ++ " for subtask " ++ showJS idv ++ ", using empty value"])
  else
    pure (st, [])

/-- The body of the normalization `map` of `parseSubtasksFromText`:
id renumbering, dependency coercion, status forcing, parent stamping and
(under bilingual mode) translation repair. -/
def reconcileSubtask (useChinese : Bool) (startId parentTaskId : Int)
    (index : Nat) (st0 : JSVal) : Except String (JSVal × List String) := do
  let idv ← jsGet st0 "id"
  let (st1, idLogs) ←
    if !(isNumEq idv (startId + index)) then do
      let st ← jsSet st0 "id" (vnum (startId + index))
      pure (st, ["Correcting subtask ID from " ++ showJS idv ++ " to " ++ toString (startId + (index : Int))])
    else
      pure (st0, ([] : List String))
  let deps ← jsGet st1 "dependencies"
  let st2 ←
    if truthy deps && isArray deps then
      jsSet st1 "dependencies" (varr ((elemsOf deps).map coerceDep))
    else
      jsSet st1 "dependencies" (varr [])
  let st3 ← jsSet st2 "status" (vstr "pending")
  let st4 ← jsSet st3 "parentTaskId" (vnum parentTaskId)
  if useChinese then
    let (st5, l1) ← fixTrans "title" "titleTrans" st4
    let (st6, l2) ← fixTrans "description" "descriptionTrans" st5
    let (st7, l3) ← fixTrans "details" "detailsTrans" st6
    let (st8, l4) ← fixTrans "testStrategy" "testStrategyTrans" st7
    pure (st8, idLogs ++ l1 ++ l2 ++ l3 ++ l4)
  else
    pure (st4, idLogs)

/-- `subtasks.map((subtask, index) => ...)`: sequential, aborting at the
first thrown exception (as JS `Array.prototype.map` does). -/
def reconcileList (useChinese : Bool) (startId parentTaskId : Int)
    (index : Nat) : List JSVal → Except String (List JSVal × List String)
  | [] => .ok ([], [])
  | st :: rest => do
    let (st', logs) ← reconcileSubtask useChinese startId parentTaskId index st
    let (rest', logs') ← reconcileList useChinese startId parentTaskId (index + 1) rest
    pure (st' :: rest', logs ++ logs')

/-- One element of the fallback subtask list built in the `catch` block. -/
def fallbackSubtask (useChinese : Bool) (startId parentTaskId : Int) (i : Nat) : JSVal :=
  let base : List (String × JSVal) :=
    [ ("id", vnum (startId + i)),
      ("title", vstr ("Subtask " ++ toString (startId + (i : Int)))),
      ("description", vstr "Auto-generated fallback subtask"),
      ("dependencies", varr []),
      ("details", vstr "This is a fallback subtask created because parsing failed. Please update with real details."),
      ("status", vstr "pending"),
      ("parentTaskId", vnum parentTaskId) ]
  vobj (if useChinese then
    base ++
      [ ("titleTrans", vstr "自动生成的子任务"),
        ("descriptionTrans", vstr "自动生成的后备子任务"),
        ("detailsTrans", vstr "这是因为解析失败而创建的后备子任务。请使用真实细节进行更新。"),
        ("testStrategyTrans", vstr "") ]
  else base)

/-- The fallback subtask list: `expectedCount` placeholders with ids
`startId, startId+1, ...`. -/
def fallbackSubtasks (useChinese : Bool) (startId parentTaskId : Int)
    (expectedCount : Nat) : List JSVal :=
  (List.range expectedCount).map (fallbackSubtask useChinese startId parentTaskId)

/-- `parseSubtasksFromText(text, startId, expectedCount, parentTaskId)`,
parameterised over `JSON.parse`.  Returns the subtask list together with
the warn/error log messages. -/
def parseSubtasksFromText (parse : String → Option JSVal) (useChinese : Bool)
    (text : String) (startId : Int) (expectedCount : Nat) (parentTaskId : Int) :
    List JSVal × List String :=
  let tryResult : Except String (List JSVal × List String) := do
    match jsIndexOf text '[', jsLastIndexOf text ']' with
    | some jsonStartIndex, some jsonEndIndex =>
      if jsonEndIndex < jsonStartIndex then
        throw "Could not locate valid JSON array in the response"
      else
        match parse (jsSubstring text jsonStartIndex (jsonEndIndex + 1)) with
        | none => throw "Unexpected token in JSON"
        | some v =>
          match v with
          | varr subtasks =>
            let countLogs : List String :=
              if subtasks.length ≠ expectedCount then
                ["Expected " ++ toString expectedCount ++ " subtasks, but parsed " ++ toString subtasks.length]
              else []
            let (out, mapLogs) ← reconcileList useChinese startId parentTaskId 0 subtasks
            pure (out, countLogs ++ mapLogs)
          | _ => throw "Parsed content is not an array"
    | _, _ => throw "Could not locate valid JSON array in the response"
  match tryResult with
  | .ok r => r
  | .error msg =>
      (fallbackSubtasks useChinese startId parentTaskId expectedCount,
       ["Error parsing subtasks: " ++ msg, "Creating fallback subtasks"])

/-! ## Decomposition pipeline
(`callGemini` / `handleRequest` / `processClaudeResponse`,
ai-services.js lines 102-360)

The provider (`geminiModel.generateContent`) is modelled as a script
`Nat → Except GemError String` mapping the index of the provider call to
either a classified error or the raw response text.  The run state `PipeSt`
records, per provider call, the full prompt sent and the `knowledgeBase`
argument in effect, plus the backoff waits performed.  The functions are
mutually recursive in the source (retry-by-reinvocation), so the embedding
carries a fuel parameter; `none` means the fuel ran out before the source
program would have returned. -/

/-- A provider error as classified by the source: `details.code` (when the
SDK supplied a `details` object) and `message`. -/
structure GemError where
  detailsCode : Option String
  message : String
deriving Repr, DecidableEq

/-- `handleGeminiError(error)` (lines 66-91): map a provider error to a
user-facing message.  When `details` is present its `code` is switched on
(with a default), otherwise the message is sniffed for "timeout" and
"network". -/
def handleGeminiError (e : GemError) : String :=
  match e.detailsCode with
  | some c =>
    if c = "RESOURCE_EXHAUSTED" then
      "Gemini quota has been exhausted. Please check your API quota and try again later."
    else if c = "PERMISSION_DENIED" then
      "Permission denied accessing Gemini API. Please check your API key and permissions."
    else if c = "INVALID_ARGUMENT" then
      "There was an issue with the request format. If this persists, please report it as a bug."
    else
      "Gemini API error: " ++ e.message
  | none =>
    if containsLower e.message "timeout" then
      "The request to Gemini timed out. Please try again."
    else if containsLower e.message "network" then
      "There was a network error connecting to Gemini. Please check your internet connection and try again."
    else
      "Error communicating with Gemini: " ++ e.message

/-- The `taskStructure` template literal of `callGemini` (lines 107-120). -/
def taskStructure : String :=
  "\x7b\n  \"id\": number,\n  \"title\": string,\n  \"titleTrans\": string (Chinese translation of title),\n  \"description\": string,\n  \"descriptionTrans\": string (Chinese translation of description),\n  \"status\": \"pending\",\n  \"dependencies\": number[] (IDs of tasks this depends on),\n  \"priority\": \"high\" | \"medium\" | \"low\",\n  \"details\": string (implementation details),\n  \"detailsTrans\": string (Chinese translation of details),\n  \"testStrategy\": string (validation approach),\n  \"testStrategyTrans\": string (Chinese translation of test strategy)\n\x7d"

/-- The `translationGuidelines` block appended under `CONFIG.useChinese`
(lines 123-130). -/
def translationGuidelines (useChinese : Bool) : String :=
  if useChinese then
    "\n11. Provide Chinese translations for each task\x27s title, description, details, and test strategy fields\n12. The titleTrans field should contain a natural, fluent Chinese translation of the English title\n13. The descriptionTrans field should contain a natural, fluent Chinese translation of the English description\n14. The detailsTrans field should contain a natural, fluent Chinese translation of the English details\n15. The testStrategyTrans field should contain a natural, fluent Chinese translation of the English test strategy\n16. Keep all original English content intact in the primary fields (title, description, details, testStrategy)\n17. Ensure all technical terms are correctly translated"
  else ""

/-- The system prompt built inside `callGemini` (lines 133-170): guidelines
9-10 are present exactly when a truthy `knowledgeBase` was supplied, and
the translation guidelines exactly under Chinese mode. -/
def systemPromptFor (useChinese : Bool) (numTasks : Nat) (prdPath : String)
    (knowledgeBase : Option String) : String :=
  "You are an AI assistant helping to break down a Product Requirements Document (PRD) into a set of sequential development tasks.\nYour goal is to create " ++ toString numTasks ++ " well-structured, actionable development tasks based on the PRD provided.\n\nEach task should follow this JSON structure:\n" ++ taskStructure ++ "\n\nGuidelines:\n1. Create exactly " ++ toString numTasks ++ " tasks, numbered from 1 to " ++ toString numTasks ++ "\n2. Each task should be atomic and focused on a single responsibility\n3. Order tasks logically - consider dependencies and implementation sequence\n4. Early tasks should focus on setup, core functionality first, then advanced features\n5. Include clear validation/testing approach for each task\n6. Set appropriate dependency IDs (a task can only depend on tasks with lower IDs)\n7. Assign priority (high/medium/low) based on criticality and dependency order\n8. Include detailed implementation guidance in the \"details\" field" ++
  (if optTruthy knowledgeBase then
    "\n9. USE THE PROVIDED BUSINESS KNOWLEDGE AS A CRITICAL REFERENCE for terminology, domain concepts, and implementation requirements\n10. Ensure all tasks align with the business knowledge context and follow domain-specific patterns"
  else "") ++
  translationGuidelines useChinese ++
  "\n\nExpected output format:\n\x7b\n  \"tasks\": [\n    \x7b\n      \"id\": 1,\n      \"title\": \"Setup Project Repository\",\n      \"description\": \"...\",\n      ...\n    \x7d,\n    ...\n  ],\n  \"metadata\": \x7b\n    \"projectName\": \"PRD Implementation\",\n    \"totalTasks\": " ++ toString numTasks ++ ",\n    \"sourceFile\": \"" ++ prdPath ++ "\",\n    \"generatedAt\": \"YYYY-MM-DD\"\n  \x7d\n\x7d\n\nImportant: Your response must be valid JSON only, with no additional explanation or comments."

/-- The `fullPrompt` assembled by `handleRequest` (lines 215-223): the
knowledge-base block sits between the system prompt and the PRD exactly
when `knowledgeBase` is truthy. -/
def fullPromptFor (systemPrompt : String) (knowledgeBase : Option String)
    (numTasks : Nat) (prdContent : String) : String :=
  if optTruthy knowledgeBase then
    systemPrompt ++ "\n\n" ++ knowledgeBase.getD "" ++
      "\n\nHere\x27s the Product Requirements Document (PRD) to break down into " ++
      toString numTasks ++ " tasks:\n\n" ++ prdContent
  else
    systemPrompt ++
      "\n\nHere\x27s the Product Requirements Document (PRD) to break down into " ++
      toString numTasks ++ " tasks:\n\n" ++ prdContent

/-- Outcome of the `try` block of `processClaudeResponse`: a processed
value plus warning logs, or the message of the thrown error. -/
inductive ParseOutcome where
  | ok (v : JSVal) (logs : List String)
  | fail (msg : String)
deriving Repr

/-- The `try` block of `processClaudeResponse` (lines 271-303): locate the
first `\x7b` and last `\x7d`, parse the slice, require a `tasks` array, warn on a
count mismatch and synthesize `metadata` when absent. -/
def tryProcessResponse (parse : String → Option JSVal) (textContent : String)
    (numTasks : Nat) (prdPath today : String) : ParseOutcome :=
  match jsIndexOf textContent '{', jsLastIndexOf textContent '}' with
  | some jsonStart, some jsonEnd =>
    match parse (jsSubstring textContent jsonStart (jsonEnd + 1)) with
    | none => .fail "Unexpected token in JSON"
    | some parsedData =>
      let tasks := getD parsedData "tasks"
      if !(truthy tasks) || !(isArray tasks) then
        .fail "Gemini\x27s response does not contain a valid tasks array"
      else
        let received := (elemsOf tasks).length
        let logs : List String :=
          if received ≠ numTasks then
            ["Expected " ++ toString numTasks ++ " tasks, but received " ++ toString received]
          else []
        let out :=
          if !(truthy (getD parsedData "metadata")) then
            setD parsedData "metadata" (vobj
              [ ("projectName", vstr "PRD Implementation"),
                ("totalTasks", vnum received),
                ("sourceFile", vstr prdPath),
                ("generatedAt", vstr today) ])
          else parsedData
        .ok out logs
  | _, _ => .fail "Could not find valid JSON in Gemini\x27s response"

/-- One fallback task of the decomposition fallback batch (lines 322-344),
`i` counting from 1. -/
def fallbackTask (useChinese : Bool) (i : Nat) : JSVal :=
  let base : List (String × JSVal) :=
    [ ("id", vnum i),
      ("title", vstr ("Task " ++ toString i)),
      ("description", vstr ("Task " ++ toString i ++ " generated as fallback due to parsing error.")),
      ("status", vstr "pending"),
      ("dependencies", varr (if i > 1 then [vnum (i - 1)] else [])),
      ("priority", vstr "medium"),
      ("details", vstr "Please fill in the implementation details for this task."),
      ("testStrategy", vstr "Manual verification.") ]
  vobj (if useChinese then
    base ++
      [ ("titleTrans", vstr ("任务 " ++ toString i)),
        ("descriptionTrans", vstr ("因解析错误而生成的备用任务 " ++ toString i ++ "。")),
        ("detailsTrans", vstr "请为此任务填写实现细节。"),
        ("testStrategyTrans", vstr "") ]
  else base)

/-- The decomposition fallback response (lines 346-355). -/
def fallbackResponse (useChinese : Bool) (numTasks : Nat) (prdPath today : String) : JSVal :=
  vobj
    [ ("tasks", varr ((List.range numTasks).map (fun j => fallbackTask useChinese (j + 1)))),
      ("metadata", vobj
        [ ("projectName", vstr "PRD Implementation"),
          ("totalTasks", vnum numTasks),
          ("sourceFile", vstr prdPath),
          ("generatedAt", vstr today),
          ("note", vstr "Generated as fallback due to parsing error.") ]) ]

/-- Run state of the decomposition pipeline: number of provider calls made,
the `(fullPrompt, knowledgeBase)` of each request in order, and the backoff
waits (in ms) performed. -/
structure PipeSt where
  nCalls : Nat
  requests : List (String × Option String)
  waits : List Nat
deriving Repr, DecidableEq

mutual

/-- `callGemini(prdContent, prdPath, numTasks, retryCount, knowledgeBase)`
(lines 102-197): build the system prompt, delegate to `handleRequest`; on a
thrown error, retry with linear backoff when `retryCount < 2` and the error
looks like quota/timeout/network, otherwise rethrow the user message. -/
def callGemini (parse : String → Option JSVal) (useChinese : Bool) (today : String)
    (script : Nat → Except GemError String) (fuel : Nat)
    (prdContent prdPath : String) (numTasks retryCount : Nat)
    (knowledgeBase : Option String) (st : PipeSt) :
    Option (PipeSt × Except GemError JSVal) :=
  match fuel with
  | 0 => none
  | Nat.succ f =>
    let sys := systemPromptFor useChinese numTasks prdPath knowledgeBase
    match handleRequest parse useChinese today script f prdContent prdPath numTasks sys knowledgeBase st with
    | none => none
    | some (st', Except.ok v) => some (st', Except.ok v)
    | some (st', Except.error e) =>
      let userMessage := handleGeminiError e
      if retryCount < 2 ∧
         (e.detailsCode = some "RESOURCE_EXHAUSTED" ∨
          containsLower e.message "timeout" = true ∨
          containsLower e.message "network" = true) then
        callGemini parse useChinese today script f prdContent prdPath numTasks
          (retryCount + 1) knowledgeBase
          { st' with waits := st'.waits ++ [(retryCount + 1) * 5000] }
      else
        some (st', Except.error ⟨none, userMessage⟩)
termination_by structural fuel

/-- `handleRequest` (lines 209-259): assemble the full prompt, make the
provider call, and feed the response text to `processClaudeResponse` with a
retry count of 0.  A provider error is wrapped into
`new Error(handleGeminiError(error))`; the returned promise of
`processClaudeResponse` is passed through un-awaited, so its rejections are
not re-wrapped here. -/
def handleRequest (parse : String → Option JSVal) (useChinese : Bool) (today : String)
    (script : Nat → Except GemError String) (fuel : Nat)
    (prdContent prdPath : String) (numTasks : Nat) (systemPrompt : String)
    (knowledgeBase : Option String) (st : PipeSt) :
    Option (PipeSt × Except GemError JSVal) :=
  match fuel with
  | 0 => none
  | Nat.succ f =>
    let fullPrompt := fullPromptFor systemPrompt knowledgeBase numTasks prdContent
    let st' : PipeSt :=
      { st with nCalls := st.nCalls + 1, requests := st.requests ++ [(fullPrompt, knowledgeBase)] }
    match script st.nCalls with
    | Except.error e => some (st', Except.error ⟨none, handleGeminiError e⟩)
    | Except.ok responseText =>
        processClaudeResponse parse useChinese today script f responseText numTasks 0 prdContent prdPath st'
termination_by structural fuel

/-- `processClaudeResponse(textContent, numTasks, retryCount, ...)`
(lines 270-360): on a processing failure, retry by re-parsing the same
text when `retryCount = 0`, by re-calling Gemini (without a knowledge
base) when `retryCount = 1`, and produce the fallback batch when
`retryCount ≥ 2`. -/
def processClaudeResponse (parse : String → Option JSVal) (useChinese : Bool) (today : String)
    (script : Nat → Except GemError String) (fuel : Nat)
    (textContent : String) (numTasks retryCount : Nat)
    (prdContent prdPath : String) (st : PipeSt) :
    Option (PipeSt × Except GemError JSVal) :=
  match fuel with
  | 0 => none
  | Nat.succ f =>
    match tryProcessResponse parse textContent numTasks prdPath today with
    | ParseOutcome.ok v _ => some (st, Except.ok v)
    | ParseOutcome.fail _ =>
      if retryCount < 2 then
        if retryCount = 1 then
          callGemini parse useChinese today script f prdContent prdPath numTasks (retryCount + 1) none st
        else
          processClaudeResponse parse useChinese today script f textContent numTasks (retryCount + 1) prdContent prdPath st
      else
        some (st, Except.ok (fallbackResponse useChinese numTasks prdPath today))
termination_by structural fuel

end

/-! ## Proof layer: object-model lemmas and a pure closed form of the
reconciliation map -/

@[simp] lemma exceptOkBind {α β : Type} (a : α) (f : α → Except String β) :
    (Except.ok a >>= f : Except String β) = f a := rfl

@[simp] lemma exceptPureEq {α : Type} (a : α) :
    (pure a : Except String α) = Except.ok a := rfl

@[simp] lemma getD_obj (fs : List (String × JSVal)) (k : String) :
    getD (vobj fs) k = (lookupField fs k).getD vundef := rfl

lemma lookupField_setPairs_self (fs : List (String × JSVal)) (k : String) (v : JSVal) :
    lookupField (setPairs fs k v) k = some v := by
  induction fs with
  | nil => simp [setPairs, lookupField]
  | cons hd tl ih =>
    obtain ⟨k0, v0⟩ := hd
    by_cases h : k0 = k <;> simp [setPairs, lookupField, h, ih]

lemma lookupField_setPairs_ne (fs : List (String × JSVal)) (k : String) (v : JSVal)
    (k' : String) (h : k' ≠ k) :
    lookupField (setPairs fs k v) k' = lookupField fs k' := by
  induction fs with
  | nil => simp [setPairs, lookupField, Ne.symm h]
  | cons hd tl ih =>
    obtain ⟨k0, v0⟩ := hd
    by_cases h0 : k0 = k
    · subst h0
      simp [setPairs, lookupField, Ne.symm h]
    · simp [setPairs, lookupField, h0, ih]

/-- Pure form of one bilingual repair block. -/
def fixTransFs (p s : String) (fs : List (String × JSVal)) :
    List (String × JSVal) × List String :=
  if truthy ((lookupField fs p).getD vundef) && !(truthy ((lookupField fs s).getD vundef)) then
    (setPairs fs s (vstr ""),
     ["Missing " ++ s ++ " for subtask " ++ showJS ((lookupField fs "id").getD vundef) ++ ", using empty value"])
  else (fs, [])

lemma fixTrans_obj (p s : String) (fs : List (String × JSVal)) :
    fixTrans p s (vobj fs) =
      Except.ok (vobj (fixTransFs p s fs).1, (fixTransFs p s fs).2) := by
  unfold fixTrans fixTransFs
  simp only [jsGet, jsSet, exceptOkBind, exceptPureEq]
  split <;> rfl

lemma fixTransFs_lookup_ne (p s k : String) (fs : List (String × JSVal)) (h : k ≠ s) :
    lookupField (fixTransFs p s fs).1 k = lookupField fs k := by
  unfold fixTransFs
  split
  · exact lookupField_setPairs_ne fs s (vstr "") k h
  · rfl

/-- Pure closed form of the per-element body of the reconciliation map. -/
def reconcilePure (useChinese : Bool) (startId parentTaskId : Int) (index : Nat)
    (fs : List (String × JSVal)) : List (String × JSVal) × List String :=
  let idv := (lookupField fs "id").getD vundef
  let p1 : List (String × JSVal) × List String :=
    if !(isNumEq idv (startId + index)) then
      (setPairs fs "id" (vnum (startId + index)),
       ["Correcting subtask ID from " ++ showJS idv ++ " to " ++ toString (startId + (index : Int))])
    else (fs, [])
  let fs1 := p1.1
  let deps := (lookupField fs1 "dependencies").getD vundef
  let fs2 := setPairs fs1 "dependencies"
    (varr (if truthy deps && isArray deps then (elemsOf deps).map coerceDep else []))
  let fs3 := setPairs fs2 "status" (vstr "pending")
  let fs4 := setPairs fs3 "parentTaskId" (vnum parentTaskId)
  if useChinese then
    let q1 := fixTransFs "title" "titleTrans" fs4
    let q2 := fixTransFs "description" "descriptionTrans" q1.1
    let q3 := fixTransFs "details" "detailsTrans" q2.1
    let q4 := fixTransFs "testStrategy" "testStrategyTrans" q3.1
    (q4.1, p1.2 ++ q1.2 ++ q2.2 ++ q3.2 ++ q4.2)
  else (fs4, p1.2)

lemma reconcileSubtask_obj (useChinese : Bool) (startId parentTaskId : Int)
    (index : Nat) (fs : List (String × JSVal)) :
    reconcileSubtask useChinese startId parentTaskId index (vobj fs) =
      Except.ok (vobj (reconcilePure useChinese startId parentTaskId index fs).1,
        (reconcilePure useChinese startId parentTaskId index fs).2) := by
  unfold reconcileSubtask reconcilePure
  simp only [jsGet, jsSet, exceptOkBind, exceptPureEq, fixTrans_obj]
  cases hb1 : isNumEq ((lookupField fs "id").getD vundef) (startId + (index : Int)) <;>
    cases useChinese <;>
      simp only [hb1, Bool.not_false, Bool.not_true, if_true, if_false, ite_true, ite_false,
        exceptOkBind, exceptPureEq, Bool.false_eq_true, Bool.true_eq_false] <;>
      (split <;> simp_all)

lemma isNumEq_eq_true_iff (v : JSVal) (n : Int) : isNumEq v n = true ↔ v = vnum n := by
  cases v <;> simp [isNumEq]

lemma reconcilePure_id (uc : Bool) (sid pid : Int) (idx : Nat)
    (fs : List (String × JSVal)) :
    lookupField (reconcilePure uc sid pid idx fs).1 "id" = some (vnum (sid + idx)) := by
  cases hb1 : isNumEq ((lookupField fs "id").getD vundef) (sid + (idx : Int)) with
  | false =>
    cases uc <;>
      simp [reconcilePure, hb1, lookupField_setPairs_ne, lookupField_setPairs_self,
        fixTransFs_lookup_ne]
  | true =>
    have hv : (lookupField fs "id").getD vundef = vnum (sid + idx) :=
      (isNumEq_eq_true_iff _ _).1 hb1
    have hl : lookupField fs "id" = some (vnum (sid + idx)) := by
      cases h : lookupField fs "id" <;> rw [h] at hv <;> simp_all
    cases uc <;>
      simp [reconcilePure, hb1, hl, isNumEq, lookupField_setPairs_ne, lookupField_setPairs_self,
        fixTransFs_lookup_ne]

lemma reconcilePure_status (uc : Bool) (sid pid : Int) (idx : Nat)
    (fs : List (String × JSVal)) :
    lookupField (reconcilePure uc sid pid idx fs).1 "status" = some (vstr "pending") := by
  cases hb1 : isNumEq ((lookupField fs "id").getD vundef) (sid + (idx : Int)) <;>
    cases uc <;>
      simp [reconcilePure, hb1, lookupField_setPairs_ne, lookupField_setPairs_self,
        fixTransFs_lookup_ne]

lemma reconcilePure_parent (uc : Bool) (sid pid : Int) (idx : Nat)
    (fs : List (String × JSVal)) :
    lookupField (reconcilePure uc sid pid idx fs).1 "parentTaskId" = some (vnum pid) := by
  cases hb1 : isNumEq ((lookupField fs "id").getD vundef) (sid + (idx : Int)) <;>
    cases uc <;>
      simp [reconcilePure, hb1, lookupField_setPairs_ne, lookupField_setPairs_self,
        fixTransFs_lookup_ne]

lemma reconcilePure_deps (uc : Bool) (sid pid : Int) (idx : Nat)
    (fs : List (String × JSVal)) :
    lookupField (reconcilePure uc sid pid idx fs).1 "dependencies" =
      some (varr
        (if truthy ((lookupField fs "dependencies").getD vundef) &&
            isArray ((lookupField fs "dependencies").getD vundef) then
          (elemsOf ((lookupField fs "dependencies").getD vundef)).map coerceDep
        else [])) := by
  cases hb1 : isNumEq ((lookupField fs "id").getD vundef) (sid + (idx : Int)) <;>
    cases uc <;>
      simp [reconcilePure, hb1, lookupField_setPairs_ne, lookupField_setPairs_self,
        fixTransFs_lookup_ne]

lemma reconcileList_ok (uc : Bool) (sid pid : Int) :
    ∀ (subs : List JSVal) (idx : Nat), (∀ x ∈ subs, isObj x = true) →
      ∃ out logs, reconcileList uc sid pid idx subs = Except.ok (out, logs) ∧
        out.map (fun t => getD t "id") =
          (List.range subs.length).map (fun i => vnum (sid + (idx + i : Nat))) := by
  intro subs
  induction subs with
  | nil =>
    intro idx _
    exact ⟨[], [], rfl, by simp⟩
  | cons hd tl ih =>
    intro idx hobj
    obtain ⟨fs, rfl⟩ : ∃ fs, hd = vobj fs := by
      have := hobj hd (by simp)
      cases hd <;> simp_all [isObj]
    obtain ⟨out, logs, hrec, hmap⟩ := ih (idx + 1) (fun x hx => hobj x (by simp [hx]))
    refine ⟨vobj (reconcilePure uc sid pid idx fs).1 :: out,
      (reconcilePure uc sid pid idx fs).2 ++ logs, ?_, ?_⟩
    · simp [reconcileList, reconcileSubtask_obj, hrec]
    · simp only [List.map_cons, hmap, List.length_cons, List.range_succ_eq_map,
        List.map_map, List.cons.injEq]
      constructor
      · simp [reconcilePure_id]
      · apply List.map_congr_left
        intro i _
        simp only [Function.comp_apply]
        congr 2
        omega

lemma fallbackSubtask_fields (uc : Bool) (sid pid : Int) (i : Nat) :
    getD (fallbackSubtask uc sid pid i) "status" = vstr "pending" ∧
    getD (fallbackSubtask uc sid pid i) "dependencies" = varr [] ∧
    getD (fallbackSubtask uc sid pid i) "parentTaskId" = vnum pid := by
  cases uc <;> simp [fallbackSubtask, getD, lookupField]

lemma fallbackSubtasks_length (uc : Bool) (sid pid : Int) (n : Nat) :
    (fallbackSubtasks uc sid pid n).length = n := by
  simp [fallbackSubtasks]

/-- Bilingual mode only appends the four repair passes after the common
spine; the non-bilingual result is that spine. -/
lemma reconcilePure_true_eq (sid pid : Int) (idx : Nat) (fs : List (String × JSVal)) :
    reconcilePure true sid pid idx fs =
      ((fixTransFs "testStrategy" "testStrategyTrans"
          (fixTransFs "details" "detailsTrans"
            (fixTransFs "description" "descriptionTrans"
              (fixTransFs "title" "titleTrans"
                (reconcilePure false sid pid idx fs).1).1).1).1).1,
        (reconcilePure false sid pid idx fs).2 ++
          (fixTransFs "title" "titleTrans" (reconcilePure false sid pid idx fs).1).2 ++
          (fixTransFs "description" "descriptionTrans"
            (fixTransFs "title" "titleTrans" (reconcilePure false sid pid idx fs).1).1).2 ++
          (fixTransFs "details" "detailsTrans"
            (fixTransFs "description" "descriptionTrans"
              (fixTransFs "title" "titleTrans" (reconcilePure false sid pid idx fs).1).1).1).2 ++
          (fixTransFs "testStrategy" "testStrategyTrans"
            (fixTransFs "details" "detailsTrans"
              (fixTransFs "description" "descriptionTrans"
                (fixTransFs "title" "titleTrans"
                  (reconcilePure false sid pid idx fs).1).1).1).1).2) := by
  cases hb1 : isNumEq ((lookupField fs "id").getD vundef) (sid + (idx : Int)) <;>
    simp [reconcilePure, hb1]

lemma reconcilePure_false_lookup_other (sid pid : Int) (idx : Nat)
    (fs : List (String × JSVal)) (k : String)
    (h1 : k ≠ "id") (h2 : k ≠ "dependencies") (h3 : k ≠ "status")
    (h4 : k ≠ "parentTaskId") :
    lookupField (reconcilePure false sid pid idx fs).1 k = lookupField fs k := by
  cases hb1 : isNumEq ((lookupField fs "id").getD vundef) (sid + (idx : Int)) <;>
    simp [reconcilePure, hb1, lookupField_setPairs_ne, h1, h2, h3, h4]

lemma fixTransFs_fires (p s : String) (fs : List (String × JSVal))
    (hp : truthy ((lookupField fs p).getD vundef) = true)
    (hs : truthy ((lookupField fs s).getD vundef) = false) :
    fixTransFs p s fs =
      (setPairs fs s (vstr ""),
       ["Missing " ++ s ++ " for subtask " ++ showJS ((lookupField fs "id").getD vundef) ++ ", using empty value"]) := by
  simp [fixTransFs, hp, hs]

/-! ## Claim theorems -/

/-- Claim C1: for every model-returned subtask array (of objects) and every
caller-supplied starting id, `parseSubtasksFromText` returns one subtask per
model subtask, in the original order, with ids exactly
`startId, startId+1, …, startId+count-1`, regardless of the ids the model
supplied. -/
theorem c1_ids_contiguous
    (parse : String → Option JSVal) (useChinese : Bool) (text : String)
    (startId : Int) (expectedCount : Nat) (parentTaskId : Int)
    (s e : Nat) (subs : List JSVal)
    (hs : jsIndexOf text '[' = some s)
    (he : jsLastIndexOf text ']' = some e)
    (hse : ¬ e < s)
    (hp : parse (jsSubstring text s (e + 1)) = some (varr subs))
    (hobj : ∀ x ∈ subs, isObj x = true) :
    (parseSubtasksFromText parse useChinese text startId expectedCount parentTaskId).1.length
        = subs.length ∧
    (parseSubtasksFromText parse useChinese text startId expectedCount parentTaskId).1.map
        (fun t => getD t "id")
      = (List.range subs.length).map (fun i : Nat => vnum (startId + (i : Int))) := by
  obtain ⟨out, logs, hrec, hmap⟩ :=
    reconcileList_ok useChinese startId parentTaskId subs 0 hobj
  have hout : (parseSubtasksFromText parse useChinese text startId expectedCount parentTaskId).1
      = out := by
    simp [parseSubtasksFromText, hs, he, hse, hp, hrec]
  have hmap' : out.map (fun t => getD t "id")
      = (List.range subs.length).map (fun i : Nat => vnum (startId + (i : Int))) := by
    rw [hmap]
    apply List.map_congr_left
    intro i _
    congr 2
    omega
  refine ⟨?_, by rw [hout, hmap']⟩
  have hlen := congrArg List.length hmap'
  simpa [hout] using hlen

def c1Subs : List JSVal := [vobj [("id", vnum 90)], vobj []]

def c1Parse : String → Option JSVal :=
  fun t => if t = "[W]" then some (varr c1Subs) else none

/-- Witness for C1 at the concrete reply `"[W]"` parsed as two subtask
objects with wrong model ids, with `startId = 5`. -/
theorem c1_ids_contiguous_witness :
    (parseSubtasksFromText c1Parse false "[W]" 5 2 3).1.length = 2 ∧
    (parseSubtasksFromText c1Parse false "[W]" 5 2 3).1.map (fun t => getD t "id")
      = (List.range 2).map (fun i : Nat => vnum (5 + (i : Int))) :=
  c1_ids_contiguous c1Parse false "[W]" 5 2 3 0 2 c1Subs rfl rfl
    (by decide) rfl (by decide)

/-- Failure of the `try` block of `parseSubtasksFromText` before the
reconciliation map: no `[`/`]` delimiter pair, delimiters in the wrong
order, an unparseable slice, or a slice that parses to a non-array. -/
def subtaskExtractionFails (parse : String → Option JSVal) (text : String) : Prop :=
  match jsIndexOf text '[', jsLastIndexOf text ']' with
  | some s, some e =>
      e < s ∨ parse (jsSubstring text s (e + 1)) = none ∨
        ∃ v, parse (jsSubstring text s (e + 1)) = some v ∧ isArray v = false
  | _, _ => True

/-- Claim C3: when extraction fails (no `[`/`]` pair, or the extracted
slice does not parse as an array), `parseSubtasksFromText` returns — it
does not throw — the fallback list, whose length is the originally
requested count and whose every element has status `pending`, empty
dependencies, and `parentTaskId` set to the parent task's id. -/
theorem c3_fallback_shape
    (parse : String → Option JSVal) (useChinese : Bool) (text : String)
    (startId : Int) (expectedCount : Nat) (parentTaskId : Int)
    (h : subtaskExtractionFails parse text) :
    (parseSubtasksFromText parse useChinese text startId expectedCount parentTaskId).1.length
        = expectedCount ∧
    ∀ t ∈ (parseSubtasksFromText parse useChinese text startId expectedCount parentTaskId).1,
      getD t "status" = vstr "pending" ∧ getD t "dependencies" = varr [] ∧
      getD t "parentTaskId" = vnum parentTaskId := by
  have hfb : (parseSubtasksFromText parse useChinese text startId expectedCount parentTaskId).1
      = fallbackSubtasks useChinese startId parentTaskId expectedCount := by
    unfold subtaskExtractionFails at h
    cases h1 : jsIndexOf text '[' with
    | none => simp [parseSubtasksFromText, h1]
    | some s =>
      cases h2 : jsLastIndexOf text ']' with
      | none => simp [parseSubtasksFromText, h1, h2]
      | some e =>
        rw [h1, h2] at h
        rcases h with hlt | hnone | ⟨v, hv, hna⟩
        · simp [parseSubtasksFromText, h1, h2, hlt]
        · by_cases hes : e < s <;> simp [parseSubtasksFromText, h1, h2, hes, hnone]
        · by_cases hes : e < s
          · simp [parseSubtasksFromText, h1, h2, hes]
          · cases v <;> simp [parseSubtasksFromText, h1, h2, hes, hv, isArray] at hna ⊢
  rw [hfb]
  refine ⟨fallbackSubtasks_length _ _ _ _, fun t ht => ?_⟩
  obtain ⟨i, _, rfl⟩ := List.mem_map.1 ht
  exact fallbackSubtask_fields useChinese startId parentTaskId i

def c3Parse : String → Option JSVal := fun _ => none

/-- Witness for C3 at a reply with no brackets at all. -/
theorem c3_fallback_shape_witness :
    (parseSubtasksFromText c3Parse true "no json here" 4 3 9).1.length = 3 ∧
    ∀ t ∈ (parseSubtasksFromText c3Parse true "no json here" 4 3 9).1,
      getD t "status" = vstr "pending" ∧ getD t "dependencies" = varr [] ∧
      getD t "parentTaskId" = vnum 9 :=
  c3_fallback_shape c3Parse true "no json here" 4 3 9 (by simp [subtaskExtractionFails, jsIndexOf, jsIndexOf.go])

/-- Claim C6: reconciliation coerces a `dependencies` value of
`["1", 2]` to `[1, 2]`, and an absent or non-array `dependencies` value to
`[]`. -/
theorem c6_dependency_coercion :
    (∀ (useChinese : Bool) (sid pid : Int) (idx : Nat) (fs : List (String × JSVal)),
      lookupField fs "dependencies" = some (varr [vstr "1", vnum 2]) →
      ∃ st' logs, reconcileSubtask useChinese sid pid idx (vobj fs) = Except.ok (st', logs) ∧
        getD st' "dependencies" = varr [vnum 1, vnum 2]) ∧
    (∀ (useChinese : Bool) (sid pid : Int) (idx : Nat) (fs : List (String × JSVal)),
      isArray ((lookupField fs "dependencies").getD vundef) = false →
      ∃ st' logs, reconcileSubtask useChinese sid pid idx (vobj fs) = Except.ok (st', logs) ∧
        getD st' "dependencies" = varr []) := by
  constructor
  · intro uc sid pid idx fs hdep
    refine ⟨_, _, reconcileSubtask_obj uc sid pid idx fs, ?_⟩
    rw [getD_obj, reconcilePure_deps]
    simp [hdep, truthy, isArray, elemsOf]
    exact ⟨rfl, rfl⟩
  · intro uc sid pid idx fs hna
    refine ⟨_, _, reconcileSubtask_obj uc sid pid idx fs, ?_⟩
    rw [getD_obj, reconcilePure_deps]
    simp [hna]

/-- Witness for C6 at concrete objects: one with `dependencies: ["1", 2]`,
one with `dependencies` absent, one with a non-array `dependencies`. -/
theorem c6_dependency_coercion_witness :
    (∃ st' logs, reconcileSubtask false 1 7 0 (vobj [("dependencies", varr [vstr "1", vnum 2])])
        = Except.ok (st', logs) ∧ getD st' "dependencies" = varr [vnum 1, vnum 2]) ∧
    (∃ st' logs, reconcileSubtask false 1 7 0 (vobj [("title", vstr "T")])
        = Except.ok (st', logs) ∧ getD st' "dependencies" = varr []) ∧
    (∃ st' logs, reconcileSubtask false 1 7 0 (vobj [("dependencies", vstr "oops")])
        = Except.ok (st', logs) ∧ getD st' "dependencies" = varr []) :=
  ⟨c6_dependency_coercion.1 false 1 7 0 _ rfl,
   c6_dependency_coercion.2 false 1 7 0 [("title", vstr "T")] rfl,
   c6_dependency_coercion.2 false 1 7 0 [("dependencies", vstr "oops")] rfl⟩

/-- Claim C9 (implicit): the dependency coercion applies `parseInt`
unconditionally to every string entry — the whole entry list is mapped
through `coerceDep`, a non-numeric string such as `"a"` becomes `NaN`
(which is not an integer value), and nothing is dropped or rejected. -/
theorem c9_parseInt_unconditional :
    (∀ (useChinese : Bool) (sid pid : Int) (idx : Nat) (fs : List (String × JSVal))
        (ds : List JSVal),
      lookupField fs "dependencies" = some (varr ds) →
      ∃ st' logs, reconcileSubtask useChinese sid pid idx (vobj fs) = Except.ok (st', logs) ∧
        getD st' "dependencies" = varr (ds.map coerceDep)) ∧
    coerceDep (vstr "a") = vnan ∧
    parseIntJS "a" = vnan ∧
    (∀ n : Int, vnan ≠ vnum n) := by
  refine ⟨?_, rfl, rfl, fun n h => by cases h⟩
  intro uc sid pid idx fs ds hdep
  refine ⟨_, _, reconcileSubtask_obj uc sid pid idx fs, ?_⟩
  rw [getD_obj, reconcilePure_deps]
  simp [hdep, truthy, isArray, elemsOf]

/-- Witness for C9: a subtask whose dependencies are `["a"]` reconciles to
dependencies `[NaN]`. -/
theorem c9_parseInt_unconditional_witness :
    ∃ st' logs, reconcileSubtask false 1 7 0 (vobj [("dependencies", varr [vstr "a"])])
        = Except.ok (st', logs) ∧ getD st' "dependencies" = varr [vnan] :=
  c9_parseInt_unconditional.1 false 1 7 0 [("dependencies", varr [vstr "a"])] [vstr "a"] rfl

/-- The four primary/secondary bilingual field pairs repaired by
`parseSubtasksFromText`. -/
def transPairs : List (String × String) :=
  [("title", "titleTrans"), ("description", "descriptionTrans"),
   ("details", "detailsTrans"), ("testStrategy", "testStrategyTrans")]

/-- Claim C7: under bilingual mode, a subtask with a non-empty primary
field whose paired secondary field is absent reconciles with that secondary
field set to the empty string and a warning logged, never failing; with
bilingual mode disabled the secondary field is left unset. -/
theorem c7_bilingual_repair
    (sid pid : Int) (idx : Nat) (fs : List (String × JSVal)) (p s t : String)
    (hpair : (p, s) ∈ transPairs)
    (hprim : lookupField fs p = some (vstr t)) (ht : t ≠ "")
    (hsec : lookupField fs s = none) :
    (∃ st' logs, reconcileSubtask true sid pid idx (vobj fs) = Except.ok (st', logs) ∧
      getD st' s = vstr "" ∧
      ("Missing " ++ s ++ " for subtask " ++ toString (sid + (idx : Int)) ++ ", using empty value")
        ∈ logs) ∧
    (∃ st' logs, reconcileSubtask false sid pid idx (vobj fs) = Except.ok (st', logs) ∧
      getD st' s = vundef) := by
  have hbid : lookupField (reconcilePure false sid pid idx fs).1 "id"
      = some (vnum (sid + idx)) := reconcilePure_id false sid pid idx fs
  simp only [transPairs, List.mem_cons, List.mem_singleton, Prod.mk.injEq,
    List.not_mem_nil, or_false] at hpair
  rcases hpair with ⟨rfl, rfl⟩ | ⟨rfl, rfl⟩ | ⟨rfl, rfl⟩ | ⟨rfl, rfl⟩
  case inl =>
    have hbp : lookupField (reconcilePure false sid pid idx fs).1 "title" = some (vstr t) := by
      rw [reconcilePure_false_lookup_other sid pid idx fs "title"
        (by decide) (by decide) (by decide) (by decide)]
      exact hprim
    have hbs : lookupField (reconcilePure false sid pid idx fs).1 "titleTrans" = none := by
      rw [reconcilePure_false_lookup_other sid pid idx fs "titleTrans"
        (by decide) (by decide) (by decide) (by decide)]
      exact hsec
    have hfire := fixTransFs_fires "title" "titleTrans" (reconcilePure false sid pid idx fs).1
      (by rw [hbp]; simp [truthy, ht]) (by rw [hbs]; simp [truthy])
    rw [hbid] at hfire
    simp only [showJS] at hfire
    constructor
    · refine ⟨_, _, reconcileSubtask_obj true sid pid idx fs, ?_, ?_⟩
      · rw [getD_obj, reconcilePure_true_eq]
        simp only
        rw [fixTransFs_lookup_ne _ _ _ _ (by decide), fixTransFs_lookup_ne _ _ _ _ (by decide),
          fixTransFs_lookup_ne _ _ _ _ (by decide), hfire]
        simp [lookupField_setPairs_self]
      · rw [reconcilePure_true_eq]
        simp [hfire, List.mem_append]
    · refine ⟨_, _, reconcileSubtask_obj false sid pid idx fs, ?_⟩
      rw [getD_obj, hbs]
      rfl
  case inr.inl =>
    have hbp : lookupField (reconcilePure false sid pid idx fs).1 "description"
        = some (vstr t) := by
      rw [reconcilePure_false_lookup_other sid pid idx fs "description"
        (by decide) (by decide) (by decide) (by decide)]
      exact hprim
    have hbs : lookupField (reconcilePure false sid pid idx fs).1 "descriptionTrans" = none := by
      rw [reconcilePure_false_lookup_other sid pid idx fs "descriptionTrans"
        (by decide) (by decide) (by decide) (by decide)]
      exact hsec
    have hq1p : lookupField (fixTransFs "title" "titleTrans"
        (reconcilePure false sid pid idx fs).1).1 "description" = some (vstr t) := by
      rw [fixTransFs_lookup_ne _ _ _ _ (by decide)]
      exact hbp
    have hq1s : lookupField (fixTransFs "title" "titleTrans"
        (reconcilePure false sid pid idx fs).1).1 "descriptionTrans" = none := by
      rw [fixTransFs_lookup_ne _ _ _ _ (by decide)]
      exact hbs
    have hq1id : lookupField (fixTransFs "title" "titleTrans"
        (reconcilePure false sid pid idx fs).1).1 "id" = some (vnum (sid + idx)) := by
      rw [fixTransFs_lookup_ne _ _ _ _ (by decide)]
      exact hbid
    have hfire := fixTransFs_fires "description" "descriptionTrans"
      (fixTransFs "title" "titleTrans" (reconcilePure false sid pid idx fs).1).1
      (by rw [hq1p]; simp [truthy, ht]) (by rw [hq1s]; simp [truthy])
    rw [hq1id] at hfire
    simp only [showJS] at hfire
    constructor
    · refine ⟨_, _, reconcileSubtask_obj true sid pid idx fs, ?_, ?_⟩
      · rw [getD_obj, reconcilePure_true_eq]
        simp only
        rw [fixTransFs_lookup_ne _ _ _ _ (by decide), fixTransFs_lookup_ne _ _ _ _ (by decide),
          hfire]
        simp [lookupField_setPairs_self]
      · rw [reconcilePure_true_eq]
        simp [hfire, List.mem_append]
    · refine ⟨_, _, reconcileSubtask_obj false sid pid idx fs, ?_⟩
      rw [getD_obj, hbs]
      rfl
  case inr.inr.inl =>
    have hbp : lookupField (reconcilePure false sid pid idx fs).1 "details"
        = some (vstr t) := by
      rw [reconcilePure_false_lookup_other sid pid idx fs "details"
        (by decide) (by decide) (by decide) (by decide)]
      exact hprim
    have hbs : lookupField (reconcilePure false sid pid idx fs).1 "detailsTrans" = none := by
      rw [reconcilePure_false_lookup_other sid pid idx fs "detailsTrans"
        (by decide) (by decide) (by decide) (by decide)]
      exact hsec
    have hq2p : lookupField (fixTransFs "description" "descriptionTrans"
        (fixTransFs "title" "titleTrans"
          (reconcilePure false sid pid idx fs).1).1).1 "details" = some (vstr t) := by
      rw [fixTransFs_lookup_ne _ _ _ _ (by decide), fixTransFs_lookup_ne _ _ _ _ (by decide)]
      exact hbp
    have hq2s : lookupField (fixTransFs "description" "descriptionTrans"
        (fixTransFs "title" "titleTrans"
          (reconcilePure false sid pid idx fs).1).1).1 "detailsTrans" = none := by
      rw [fixTransFs_lookup_ne _ _ _ _ (by decide), fixTransFs_lookup_ne _ _ _ _ (by decide)]
      exact hbs
    have hq2id : lookupField (fixTransFs "description" "descriptionTrans"
        (fixTransFs "title" "titleTrans"
          (reconcilePure false sid pid idx fs).1).1).1 "id" = some (vnum (sid + idx)) := by
      rw [fixTransFs_lookup_ne _ _ _ _ (by decide), fixTransFs_lookup_ne _ _ _ _ (by decide)]
      exact hbid
    have hfire := fixTransFs_fires "details" "detailsTrans"
      (fixTransFs "description" "descriptionTrans"
        (fixTransFs "title" "titleTrans" (reconcilePure false sid pid idx fs).1).1).1
      (by rw [hq2p]; simp [truthy, ht]) (by rw [hq2s]; simp [truthy])
    rw [hq2id] at hfire
    simp only [showJS] at hfire
    constructor
    · refine ⟨_, _, reconcileSubtask_obj true sid pid idx fs, ?_, ?_⟩
      · rw [getD_obj, reconcilePure_true_eq]
        simp only
        rw [fixTransFs_lookup_ne _ _ _ _ (by decide), hfire]
        simp [lookupField_setPairs_self]
      · rw [reconcilePure_true_eq]
        simp [hfire, List.mem_append]
    · refine ⟨_, _, reconcileSubtask_obj false sid pid idx fs, ?_⟩
      rw [getD_obj, hbs]
      rfl
  case inr.inr.inr =>
    have hbp : lookupField (reconcilePure false sid pid idx fs).1 "testStrategy"
        = some (vstr t) := by
      rw [reconcilePure_false_lookup_other sid pid idx fs "testStrategy"
        (by decide) (by decide) (by decide) (by decide)]
      exact hprim
    have hbs : lookupField (reconcilePure false sid pid idx fs).1 "testStrategyTrans" = none := by
      rw [reconcilePure_false_lookup_other sid pid idx fs "testStrategyTrans"
        (by decide) (by decide) (by decide) (by decide)]
      exact hsec
    have hq3p : lookupField (fixTransFs "details" "detailsTrans"
        (fixTransFs "description" "descriptionTrans"
          (fixTransFs "title" "titleTrans"
            (reconcilePure false sid pid idx fs).1).1).1).1 "testStrategy"
        = some (vstr t) := by
      rw [fixTransFs_lookup_ne _ _ _ _ (by decide), fixTransFs_lookup_ne _ _ _ _ (by decide),
        fixTransFs_lookup_ne _ _ _ _ (by decide)]
      exact hbp
    have hq3s : lookupField (fixTransFs "details" "detailsTrans"
        (fixTransFs "description" "descriptionTrans"
          (fixTransFs "title" "titleTrans"
            (reconcilePure false sid pid idx fs).1).1).1).1 "testStrategyTrans" = none := by
      rw [fixTransFs_lookup_ne _ _ _ _ (by decide), fixTransFs_lookup_ne _ _ _ _ (by decide),
        fixTransFs_lookup_ne _ _ _ _ (by decide)]
      exact hbs
    have hq3id : lookupField (fixTransFs "details" "detailsTrans"
        (fixTransFs "description" "descriptionTrans"
          (fixTransFs "title" "titleTrans"
            (reconcilePure false sid pid idx fs).1).1).1).1 "id"
        = some (vnum (sid + idx)) := by
      rw [fixTransFs_lookup_ne _ _ _ _ (by decide), fixTransFs_lookup_ne _ _ _ _ (by decide),
        fixTransFs_lookup_ne _ _ _ _ (by decide)]
      exact hbid
    have hfire := fixTransFs_fires "testStrategy" "testStrategyTrans"
      (fixTransFs "details" "detailsTrans"
        (fixTransFs "description" "descriptionTrans"
          (fixTransFs "title" "titleTrans" (reconcilePure false sid pid idx fs).1).1).1).1
      (by rw [hq3p]; simp [truthy, ht]) (by rw [hq3s]; simp [truthy])
    rw [hq3id] at hfire
    simp only [showJS] at hfire
    constructor
    · refine ⟨_, _, reconcileSubtask_obj true sid pid idx fs, ?_, ?_⟩
      · rw [getD_obj, reconcilePure_true_eq]
        simp only
        rw [hfire]
        simp [lookupField_setPairs_self]
      · rw [reconcilePure_true_eq]
        simp [hfire, List.mem_append]
    · refine ⟨_, _, reconcileSubtask_obj false sid pid idx fs, ?_⟩
      rw [getD_obj, hbs]
      rfl

/-- Witness for C7: a subtask with `title: "Hello"` and no `titleTrans`. -/
theorem c7_bilingual_repair_witness :
    (∃ st' logs, reconcileSubtask true 2 9 0 (vobj [("title", vstr "Hello")])
        = Except.ok (st', logs) ∧ getD st' "titleTrans" = vstr "" ∧
      ("Missing " ++ "titleTrans" ++ " for subtask " ++ toString ((2 : Int) + ((0 : Nat) : Int)) ++ ", using empty value")
        ∈ logs) ∧
    (∃ st' logs, reconcileSubtask false 2 9 0 (vobj [("title", vstr "Hello")])
        = Except.ok (st', logs) ∧ getD st' "titleTrans" = vundef) :=
  c7_bilingual_repair 2 9 0 [("title", vstr "Hello")] "title" "titleTrans" "Hello"
    (by simp [transPairs]) rfl (by decide) rfl

lemma fallbackTask_fields (useChinese : Bool) (i : Nat) :
    getD (fallbackTask useChinese i) "id" = vnum i ∧
    getD (fallbackTask useChinese i) "dependencies"
      = varr (if i > 1 then [vnum (i - 1)] else []) := by
  cases useChinese <;> simp [fallbackTask, getD, lookupField]

/-- Amended Claim C5: the dependency invariant (dependency ids strictly
below the task's own id) holds for the fallback outputs — fallback
subtasks have no dependencies at all, and fallback task `i` depends only
on task `i-1` — but it is not checked or enforced on reconciled model
output. -/
theorem c5_invariant_on_fallback_only :
    (∀ (useChinese : Bool) (sid pid : Int) (n : Nat),
      ∀ t ∈ fallbackSubtasks useChinese sid pid n, getD t "dependencies" = varr []) ∧
    (∀ (useChinese : Bool) (n : Nat) (prdPath today : String),
      ∀ t ∈ elemsOf (getD (fallbackResponse useChinese n prdPath today) "tasks"),
        ∀ d ∈ elemsOf (getD t "dependencies"),
          ∃ i j : Int, d = vnum i ∧ getD t "id" = vnum j ∧ i < j) := by
  constructor
  · intro uc sid pid n t ht
    obtain ⟨i, _, rfl⟩ := List.mem_map.1 ht
    exact (fallbackSubtask_fields uc sid pid i).2.1
  · intro uc n prdPath today t ht d hd
    have htasks : elemsOf (getD (fallbackResponse uc n prdPath today) "tasks")
        = (List.range n).map (fun j => fallbackTask uc (j + 1)) := by
      simp [fallbackResponse, getD, lookupField, elemsOf]
    rw [htasks] at ht
    obtain ⟨j, _, rfl⟩ := List.mem_map.1 ht
    obtain ⟨hid, hdep⟩ := fallbackTask_fields uc (j + 1)
    rw [hdep] at hd
    by_cases hj : j + 1 > 1
    · rw [if_pos hj] at hd
      simp only [elemsOf, List.mem_singleton] at hd
      subst hd
      exact ⟨((j + 1 : Nat) : Int) - 1, ((j + 1 : Nat) : Int), rfl, hid, by push_cast; omega⟩
    · rw [if_neg hj] at hd
      simp [elemsOf] at hd

/-- Witness for the amended C5: the first fallback subtask of a 1-element
fallback list, and the second fallback task of a 2-task fallback batch. -/
theorem c5_invariant_on_fallback_only_witness :
    getD (fallbackSubtask false 1 2 0) "dependencies" = varr [] ∧
    (∃ i j : Int, vnum 1 = vnum i ∧ getD (fallbackTask false 2) "id" = vnum j ∧ i < j) := by
  constructor
  · exact c5_invariant_on_fallback_only.1 false 1 2 1 (fallbackSubtask false 1 2 0)
      (by simp [fallbackSubtasks])
  · refine c5_invariant_on_fallback_only.2 false 2 "p" "d" (fallbackTask false 2) ?_ (vnum 1) ?_
    · show fallbackTask false 2 ∈ elemsOf (getD (fallbackResponse false 2 "p" "d") "tasks")
      have h : elemsOf (getD (fallbackResponse false 2 "p" "d") "tasks")
          = [fallbackTask false 1, fallbackTask false 2] := rfl
      rw [h]
      exact List.mem_cons_of_mem _ (List.mem_cons_self _ _)
    · show vnum 1 ∈ elemsOf (getD (fallbackTask false 2) "dependencies")
      have h : elemsOf (getD (fallbackTask false 2) "dependencies") = [vnum 1] := rfl
      rw [h]
      exact List.mem_cons_self _ _

def c5Parse : String → Option JSVal :=
  fun t => if t = "[C5]" then
    some (varr [vobj [("id", vnum 1), ("dependencies", varr [vnum 99])]])
  else none

/-- Counterexample to Claim C5 as stated: a reconciled subtask list
returned by `parseSubtasksFromText` whose single subtask has id 1 and
dependency id 99 — the dependency id is not strictly less than the
subtask's own id, so the invariant does not hold for pipeline output. -/
theorem c5_counterexample :
    getD ((parseSubtasksFromText c5Parse false "[C5]" 1 1 4).1.getD 0 vundef) "id" = vnum 1 ∧
    getD ((parseSubtasksFromText c5Parse false "[C5]" 1 1 4).1.getD 0 vundef) "dependencies"
      = varr [vnum 99] ∧
    ¬ ((99 : Int) < 1) :=
  ⟨rfl, rfl, by decide⟩

/-- Amended Claim C8: when a decomposition reply for `k` tasks parses with
`m ≠ k` tasks and carries no `metadata` of its own, processing logs a
warning (not a failure), returns all `m` tasks, and the synthesized
`metadata.totalTasks` equals `m`; a model-supplied `metadata` object,
however, is kept as-is. -/
theorem c8_count_mismatch_amended
    (parse : String → Option JSVal) (useChinese : Bool) (today : String)
    (text : String) (numTasks : Nat) (prdPath : String)
    (s e : Nat) (fs : List (String × JSVal)) (ts : List JSVal)
    (hs : jsIndexOf text '{' = some s) (he : jsLastIndexOf text '}' = some e)
    (hp : parse (jsSubstring text s (e + 1)) = some (vobj fs))
    (htasks : lookupField fs "tasks" = some (varr ts))
    (hmeta : lookupField fs "metadata" = none)
    (hmm : ts.length ≠ numTasks) :
    ∃ v, tryProcessResponse parse text numTasks prdPath today
        = ParseOutcome.ok v
            ["Expected " ++ toString numTasks ++ " tasks, but received " ++ toString ts.length] ∧
      getD v "tasks" = varr ts ∧
      getD (getD v "metadata") "totalTasks" = vnum ts.length ∧
      (∀ (script : Nat → Except GemError String) (fuel : Nat) (prdContent : String) (st : PipeSt),
        processClaudeResponse parse useChinese today script (fuel + 1) text numTasks 0
            prdContent prdPath st
          = some (st, Except.ok v)) := by
  have htry : tryProcessResponse parse text numTasks prdPath today
      = ParseOutcome.ok
          (setD (vobj fs) "metadata" (vobj
            [ ("projectName", vstr "PRD Implementation"),
              ("totalTasks", vnum ts.length),
              ("sourceFile", vstr prdPath),
              ("generatedAt", vstr today) ]))
          ["Expected " ++ toString numTasks ++ " tasks, but received " ++ toString ts.length] := by
    simp [tryProcessResponse, hs, he, hp, htasks, hmeta, truthy, isArray, elemsOf, hmm]
  refine ⟨_, htry, ?_, ?_, ?_⟩
  · simp only [setD, getD_obj]
    rw [lookupField_setPairs_ne fs "metadata" _ "tasks" (by decide), htasks]
    rfl
  · simp [setD, getD, lookupField_setPairs_self, lookupField]
  · intro script fuel prdContent st
    simp [processClaudeResponse, htry]

def c8NoMetaParse : String → Option JSVal :=
  fun _ => some (vobj [("tasks", varr [vnum 1, vnum 2, vnum 3, vnum 4])])

/-- Witness for the amended C8: a reply with 4 tasks and no metadata,
requested count 5. -/
theorem c8_count_mismatch_amended_witness :
    ∃ v, tryProcessResponse c8NoMetaParse "\x7bM\x7d" 5 "p" "d"
        = ParseOutcome.ok v
            ["Expected " ++ toString 5 ++ " tasks, but received " ++ toString 4] ∧
      getD v "tasks" = varr [vnum 1, vnum 2, vnum 3, vnum 4] ∧
      getD (getD v "metadata") "totalTasks" = vnum 4 ∧
      (∀ (script : Nat → Except GemError String) (fuel : Nat) (prdContent : String) (st : PipeSt),
        processClaudeResponse c8NoMetaParse false "d" script (fuel + 1) "\x7bM\x7d" 5 0
            prdContent "p" st
          = some (st, Except.ok v)) :=
  c8_count_mismatch_amended c8NoMetaParse false "d" "\x7bM\x7d" 5 "p" 0 2
    [("tasks", varr [vnum 1, vnum 2, vnum 3, vnum 4])] [vnum 1, vnum 2, vnum 3, vnum 4]
    rfl rfl rfl rfl rfl (by decide)

def c8WithMetaVal : JSVal :=
  vobj [("tasks", varr [vnum 1, vnum 2, vnum 3, vnum 4]),
        ("metadata", vobj [("totalTasks", vnum 5)])]

def c8WithMetaParse : String → Option JSVal := fun _ => some c8WithMetaVal

/-- Counterexample to Claim C8 as stated: requesting 5 tasks where the
reply parses with 4 tasks but carries its own `metadata` with
`totalTasks: 5` — the batch is returned with `metadata.totalTasks = 5`
(the model's value, equal to `k`), not 4 (the actual count `m`). -/
theorem c8_counterexample :
    tryProcessResponse c8WithMetaParse "\x7bM\x7d" 5 "p" "d"
      = ParseOutcome.ok c8WithMetaVal ["Expected " ++ toString 5 ++ " tasks, but received " ++ toString 4] ∧
    getD (getD c8WithMetaVal "metadata") "totalTasks" = vnum 5 ∧
    (elemsOf (getD c8WithMetaVal "tasks")).length = 4 ∧
    (5 : Int) ≠ (4 : Int) :=
  ⟨rfl, rfl, rfl, by decide⟩

/-! ## Pipeline claims -/

def c2Parse : String → Option JSVal := fun _ => none

def c2Script : Nat → Except GemError String := fun _ => Except.ok "not json"

lemma c2_try_fails (text : String) (n : Nat) (path today : String) :
    ∃ msg, tryProcessResponse c2Parse text n path today = ParseOutcome.fail msg := by
  unfold tryProcessResponse
  cases jsIndexOf text '{' <;> cases jsLastIndexOf text '}' <;> simp [c2Parse]

lemma c2_aux (uc : Bool) (today : String) : ∀ fuel : Nat,
    (∀ prd path n rc kb st,
      callGemini c2Parse uc today c2Script fuel prd path n rc kb st = none) ∧
    (∀ prd path n sysP kb st,
      handleRequest c2Parse uc today c2Script fuel prd path n sysP kb st = none) ∧
    (∀ text n rc prd path st, rc ≤ 1 →
      processClaudeResponse c2Parse uc today c2Script fuel text n rc prd path st = none) := by
  intro fuel
  induction fuel with
  | zero =>
    refine ⟨?_, ?_, ?_⟩ <;> intros <;>
      simp [callGemini, handleRequest, processClaudeResponse]
  | succ f ih =>
    obtain ⟨ihc, ihh, ihp⟩ := ih
    refine ⟨?_, ?_, ?_⟩
    · intro prd path n rc kb st
      simp [callGemini, ihh]
    · intro prd path n sysP kb st
      simp only [handleRequest, c2Script]
      exact ihp _ _ _ _ _ _ (by omega)
    · intro text n rc prd path st hrc
      obtain ⟨msg, hmsg⟩ := c2_try_fails text n path today
      interval_cases rc
      · simp only [processClaudeResponse, hmsg]
        simp only [Nat.zero_lt_succ, if_true, reduceIte]
        exact ihp _ _ _ _ _ _ (by omega)
      · simp only [processClaudeResponse, hmsg]
        simp only [Nat.one_lt_two, if_true, reduceIte]
        exact ihc _ _ _ _ _ _

/-- Claim C2 (code defect): with a provider that always answers with text
containing no parseable JSON, the decomposition pipeline never returns —
for every fuel bound the run is still unfinished.  The fresh-response
retry hands the new text to `processClaudeResponse` with `retryCount = 0`
again (`handleRequest` hard-codes 0), so the parse-retry budget never
reaches 2 along the pipeline and the fallback branch is unreachable. -/
theorem c2_nontermination_on_malformed (useChinese : Bool) (today : String)
    (fuel : Nat) (prdContent prdPath : String) (numTasks : Nat)
    (knowledgeBase : Option String) (st : PipeSt) :
    callGemini c2Parse useChinese today c2Script fuel prdContent prdPath numTasks 0
      knowledgeBase st = none :=
  (c2_aux useChinese today fuel).1 prdContent prdPath numTasks 0 knowledgeBase st

def emptySt : PipeSt := ⟨0, [], []⟩

def c4NetErr : GemError := ⟨none, "fetch failed: network error"⟩

def c4PermErr : GemError := ⟨some "PERMISSION_DENIED", "permission denied by upstream"⟩

def c4QuotaErr : GemError := ⟨some "RESOURCE_EXHAUSTED", "resource exhausted"⟩

def c4TimeoutErr : GemError := ⟨none, "Request timeout after 60000ms"⟩

def c4GoodVal : JSVal := vobj [("tasks", varr [vobj [("id", vnum 1)]])]

def c4Parse : String → Option JSVal :=
  fun t => if t = "\x7bG\x7d" then some c4GoodVal else none

def c4NetScript : Nat → Except GemError String :=
  fun k => if k < 2 then Except.error c4NetErr else Except.ok "\x7bG\x7d"

def c4PermScript : Nat → Except GemError String := fun _ => Except.error c4PermErr

def c4QuotaScript : Nat → Except GemError String := fun _ => Except.error c4QuotaErr

def c4TimeoutScript : Nat → Except GemError String := fun _ => Except.error c4TimeoutErr

/-- Claim C4 (code defect): a `network`-classified failure twice followed
by success yields exactly 3 provider calls with backoff waits 5s then 10s
and the successful (non-fallback) result; `permissionDenied` is terminal
after exactly 1 call.  But `quotaExhausted` and `timeout` failures are
also terminal after exactly 1 call — `handleRequest` re-throws
`new Error(userMessage)`, which drops `error.details` and turns the
timeout message into "timed out", so `callGemini`'s retry test
(`details.code === 'RESOURCE_EXHAUSTED'` / message contains "timeout")
can never match for them. -/
theorem c4_retry_classification :
    (callGemini c4Parse false "D" c4NetScript 9 "PRD" "path" 1 0 none emptySt).map
        (fun p => (p.1.nCalls, p.1.waits, p.2.isOk)) = some (3, [5000, 10000], true) ∧
    (callGemini c4Parse false "D" c4NetScript 9 "PRD" "path" 1 0 none emptySt).map
        (fun p => match p.2 with | Except.ok v => getD v "tasks" | Except.error _ => vundef)
      = some (varr [vobj [("id", vnum 1)]]) ∧
    (callGemini c4Parse false "D" c4PermScript 9 "PRD" "path" 1 0 none emptySt).map
        (fun p => (p.1.nCalls, p.1.waits, p.2.isOk)) = some (1, [], false) ∧
    (callGemini c4Parse false "D" c4QuotaScript 9 "PRD" "path" 1 0 none emptySt).map
        (fun p => (p.1.nCalls, p.1.waits, p.2.isOk)) = some (1, [], false) ∧
    (callGemini c4Parse false "D" c4TimeoutScript 9 "PRD" "path" 1 0 none emptySt).map
        (fun p => (p.1.nCalls, p.1.waits, p.2.isOk)) = some (1, [], false) :=
  ⟨rfl, rfl, rfl, rfl, rfl⟩

def c10Val : JSVal := vobj [("tasks", varr [vobj [("id", vnum 7)]])]

def c10Parse : String → Option JSVal :=
  fun t => if t = "\x7bG\x7d" then some c10Val else none

def c10Script : Nat → Except GemError String :=
  fun k => if k = 0 then Except.ok "no brackets" else Except.ok "\x7bG\x7d"

/-- Claim C10 (implicit): when the first provider response fails to parse
and the pipeline re-sends the request (second parse retry), the re-sent
request is made with `knowledgeBase = null`: the first request's prompt
embeds the knowledge-base block, the second request's prompt is the
no-knowledge prompt. -/
theorem c10_retry_drops_knowledge_base
    (prdContent prdPath : String) (numTasks : Nat) (kb : String) (hkb : kb ≠ "") :
    callGemini c10Parse false "D" c10Script 9 prdContent prdPath numTasks 0 (some kb) emptySt
      = some
        (⟨2,
          [(fullPromptFor (systemPromptFor false numTasks prdPath (some kb)) (some kb)
              numTasks prdContent, some kb),
           (fullPromptFor (systemPromptFor false numTasks prdPath none) none
              numTasks prdContent, none)],
          []⟩,
         Except.ok (vobj
           [("tasks", varr [vobj [("id", vnum 7)]]),
            ("metadata", vobj
              [("projectName", vstr "PRD Implementation"), ("totalTasks", vnum 1),
               ("sourceFile", vstr prdPath), ("generatedAt", vstr "D")])])) ∧
    fullPromptFor (systemPromptFor false numTasks prdPath (some kb)) (some kb)
        numTasks prdContent
      = systemPromptFor false numTasks prdPath (some kb) ++ "\n\n" ++ kb ++
        "\n\nHere\x27s the Product Requirements Document (PRD) to break down into " ++
        toString numTasks ++ " tasks:\n\n" ++ prdContent ∧
    fullPromptFor (systemPromptFor false numTasks prdPath none) none numTasks prdContent
      = systemPromptFor false numTasks prdPath none ++
        "\n\nHere\x27s the Product Requirements Document (PRD) to break down into " ++
        toString numTasks ++ " tasks:\n\n" ++ prdContent := by
  refine ⟨rfl, ?_, rfl⟩
  simp [fullPromptFor, optTruthy, hkb]

/-- Witness for C10 with a concrete knowledge base. -/
theorem c10_retry_drops_knowledge_base_witness :
    fullPromptFor (systemPromptFor false 3 "F" (some "K")) (some "K") 3 "P"
      = systemPromptFor false 3 "F" (some "K") ++ "\n\n" ++ "K" ++
        "\n\nHere\x27s the Product Requirements Document (PRD) to break down into " ++
        toString 3 ++ " tasks:\n\n" ++ "P" :=
  (c10_retry_drops_knowledge_base "P" "F" 3 "K" (by decide)).2.1

end AiServices
